import Mathlib

/-!
Verification development for the `bevy_clouds` repository.

The development shallowly embeds the two correctness-sensitive pieces of the
repository:

* `src/volume/loader.rs` — the VDB volume decoder (`VolumeLoader::load`),
  embedded as `VolumeLoader.load` below.  The embedding works at the level of
  the parsed stream: the input record carries the outcomes of the fallible
  library steps (stream read, container parse, grid read, metadata reads) and
  the parsed data (grid names, bounding box, sparse entries).  Machine
  arithmetic follows the release build: `i32` vector arithmetic wraps
  (`wrapI32`), `as u32` and `as usize` casts are modelled exactly
  (two-complement reinterpretation resp. float truncation with saturation),
  `u64`/`usize` multiplication and addition wrap modulo `2^64` (`m64`).  Grid
  positions are carried as the integers the file stores; the `f32` path the
  source takes — the library hands positions over as `f32`, `aabb_min` is
  cast `as f32`, and the subtraction is an `f32` operation — is modelled by
  `f32ofInt`, the IEEE round-to-nearest-ties-to-even conversion of an
  integer to the nearest 24-bit-significand value (exact below `2^24`,
  rounding above it, e.g. `33554431 ↦ 33554432`).  `Vec::resize` panics
  deterministically (capacity overflow) when the requested byte length
  exceeds `isize::MAX = 2^63 - 1`; this is modelled, while allocation
  failure for feasible lengths (a process abort, dependent on the machine)
  is outside the model.  A Rust panic (failed `unwrap`, out of range index,
  capacity overflow) is modelled as `none`; a returned `Result` is
  `some (Except ...)`.  Half-precision values are carried as their 16 raw
  bits; the target is little-endian, so `to_ne_bytes` is low byte first.

* `src/cloud/node.rs`, `src/cloud/pipeline.rs`, `src/cloud/settings.rs` — the
  per-view compositing node, the pipeline layout and the settings record,
  embedded as `CloudRenderNode.run`, `CloudPipeline.postProcessLayout` and
  `CloudSettings.fields`.  The node embedding records the externally visible
  effects of one invocation: the resulting view target (the ping-pong flip
  performed by `post_process_write`), the bind groups created, and the render
  passes begun together with their attachments, bind group sets and draws.
  `Operations.default` follows the wgpu `Default` instances:
  `load = LoadOp::Clear(Color::default())`, `store = true`.
-/

/-! ### Machine arithmetic helpers -/

/-- Wrapping `i32` arithmetic: reduce an integer into `[-2^31, 2^31)`. -/
def wrapI32 (i : Int) : Int :=
  (i + 2 ^ 31) % 2 ^ 32 - 2 ^ 31

/-- The Rust cast `i32 as u32`: two-complement reinterpretation. -/
def u32cast (i : Int) : Nat :=
  (i % 2 ^ 32).toNat

/-- Wrapping `u64`/`usize` arithmetic (release build), modulo `2^64`. -/
def m64 (n : Nat) : Nat :=
  n % 18446744073709551616

/-- The Rust cast `f32 as usize` applied to an integral value: saturating
(negative values clamp to `0`, huge values clamp to `usize::MAX`). -/
def satUsize (i : Int) : Nat :=
  if i < 0 then 0 else min i.toNat 18446744073709551615

/-- Number of halvings that bring `n` into the 24-bit significand range of
`f32`: `log2 n - 23` when `n ≥ 2^24`, else `0` (the search is bounded by the
64-bit input range of the loader). -/
def f32scale (n : Nat) : Nat :=
  (List.range 64).countP fun e => 2 ^ 24 ≤ n / 2 ^ e

/-- Round a natural number to the nearest `f32`-representable value: keep a
24-bit significand, round to nearest, ties to even. -/
def f32roundNat (n : Nat) : Nat :=
  let e := f32scale n
  if e = 0 then n
  else
    let q := n / 2 ^ e
    let r := n % 2 ^ e
    if 2 * r < 2 ^ e then q * 2 ^ e
    else if 2 ^ e < 2 * r then (q + 1) * 2 ^ e
    else if q % 2 = 0 then q * 2 ^ e
    else (q + 1) * 2 ^ e

/-- The value of an integer seen through `f32`: Rust `as f32` on integers
and every correctly rounded `f32` operation whose exact result is an integer
round to the nearest representable value, ties to even.  Exact for
magnitudes up to `2^24`, rounding above. -/
def f32ofInt (i : Int) : Int :=
  if i < 0 then -(f32roundNat i.natAbs : Int) else (f32roundNat i.natAbs : Int)

/-- Split 16 raw half-precision bits into native-endian (little-endian) bytes,
as `half::f16::to_ne_bytes` does: low byte first. -/
def f16ToNeBytes (v : Nat) : Nat × Nat :=
  (v % 256, v / 256 % 256)

/-! ### Data model of the loader (`src/volume/loader.rs`) -/

/-- Integer 3-vector (`bevy::math::IVec3`); components are conceptually `i32`,
wrapping is applied at each arithmetic step of the embedding. -/
structure IVec3 where
  x : Int
  y : Int
  z : Int
deriving DecidableEq, Repr

/-- The `i32` range constraint on one component. -/
def inI32 (i : Int) : Prop :=
  -(2 ^ 31) ≤ i ∧ i < 2 ^ 31

/-- The `i32` range constraint on a vector. -/
def IVec3.inRange (v : IVec3) : Prop :=
  inI32 v.x ∧ inI32 v.y ∧ inI32 v.z

/-- Componentwise order on integer vectors. -/
def IVec3.le (a b : IVec3) : Prop :=
  a.x ≤ b.x ∧ a.y ≤ b.y ∧ a.z ≤ b.z

instance (i : Int) : Decidable (inI32 i) := by
  unfold inI32
  infer_instance

instance (v : IVec3) : Decidable v.inRange := by
  unfold IVec3.inRange
  infer_instance

instance (a b : IVec3) : Decidable (a.le b) := by
  unfold IVec3.le
  infer_instance

/-- Whether every component of a vector is exactly representable in `f32`
(magnitude at most `2^24`). -/
def IVec3.f32exact (v : IVec3) : Prop :=
  v.x.natAbs ≤ 16777216 ∧ v.y.natAbs ≤ 16777216 ∧ v.z.natAbs ≤ 16777216

instance (v : IVec3) : Decidable v.f32exact := by
  unfold IVec3.f32exact
  infer_instance

/-- The error enumeration `VolumeLoaderError` of `src/volume/loader.rs`.  It
has exactly the three variants of the source; there is no variant for a
corrupt grid. -/
inductive VolumeLoaderError where
  | ioError
  | failedToParseVolume
  | gridMetadataError
deriving DecidableEq, Repr

/-- The dense byte buffer `image_data`.  `Vec::resize(len, 0)` makes it a
zero-filled buffer of length `len`; subsequent index assignments are recorded
in order in `writes` (later writes win).  Reads outside `len` never happen in
the embedding because every write is guarded exactly as the Rust index
operation is. -/
structure ByteBuf where
  len : Nat
  writes : List (Nat × Nat)
deriving DecidableEq, Repr

/-- Last write to byte `i`, if any. -/
def lookupLast (ws : List (Nat × Nat)) (i : Nat) : Option Nat :=
  ws.foldl (fun acc w => if w.1 = i then some w.2 else acc) none

/-- Read byte `i` of the buffer: the last value written there, else the zero
fill. -/
def ByteBuf.get (b : ByteBuf) (i : Nat) : Nat :=
  (lookupLast b.writes i).getD 0

/-- Record the index assignment `buf[i] = v` (the caller checks the bound,
as the Rust indexing does). -/
def ByteBuf.push (b : ByteBuf) (i v : Nat) : ByteBuf :=
  ⟨b.len, b.writes ++ [(i, v)]⟩

/-- The decoded `Image` asset: texture dimensions (the `Extent3d` built from
the wrapped extent) and the dense data buffer.  The descriptor constants of
the source (3D dimension, `R16Float`, one mip level, clamp-to-edge linear
sampler) are fixed and carried implicitly. -/
structure Image where
  width : Nat
  height : Nat
  depth : Nat
  data : ByteBuf
deriving DecidableEq, Repr

/-- The input to the loader, abstracted at the level of the `vdb_rs` library
calls the source makes, in the order it makes them: `read_to_end`
(`readOk`), `VdbReader::new` (`parseOk`), `available_grids` (`grids`),
`read_grid` (`readGridOk`), `descriptor.aabb_max()` / `aabb_min()`
(`aabbMaxOk` / `aabbMinOk` and the two bounds), and the sparse iteration
(`entries`, each an integer position with 16 raw half-precision bits). -/
structure VdbFile where
  readOk : Bool
  parseOk : Bool
  grids : List String
  readGridOk : Bool
  aabbMaxOk : Bool
  aabbMinOk : Bool
  aabbMin : IVec3
  aabbMax : IVec3
  entries : List (IVec3 × Nat)
deriving DecidableEq, Repr

/-- One iteration of the fill loop of `VolumeLoader::load` (lines 75–86 of
`src/volume/loader.rs`): the library hands the position over as `f32`
(`f32ofInt` of the stored integer coordinate), `aabb_min` components are
cast `as f32` (`f32ofInt` again), the subtraction is a correctly rounded
`f32` operation (`f32ofInt` of the exact integer difference of the two
representable operands), and `as usize` truncates with saturation
(`satUsize`, exact on the integral values arising here).  The linear byte
offset is computed with wrapping `usize` arithmetic, and the two byte
writes are guarded exactly as the Rust index operation: an out of range
index is a panic (`none`). -/
def fillEntry (w h : Nat) (mn : IVec3) (buf : ByteBuf) (e : IVec3 × Nat) :
    Option ByteBuf :=
  let x := satUsize (f32ofInt (f32ofInt e.1.x - f32ofInt mn.x))
  let y := satUsize (f32ofInt (f32ofInt e.1.y - f32ofInt mn.y))
  let z := satUsize (f32ofInt (f32ofInt e.1.z - f32ofInt mn.z))
  let index := m64 (m64 (x + m64 (y * w)) + m64 (m64 (z * w) * h)) * 2 % 18446744073709551616
  let bytes := f16ToNeBytes e.2
  if index < buf.len then
    let buf1 := buf.push index bytes.1
    if index + 1 < buf1.len then
      some (buf1.push (index + 1) bytes.2)
    else
      none
  else
    none

/-- The `Extent3d` width of the source: the `x` component of the wrapping
`i32` computation `aabb_max - aabb_min + IVec3::ONE`, cast `as u32`. -/
def extentW (mn mx : IVec3) : Nat :=
  u32cast (wrapI32 (wrapI32 (mx.x - mn.x) + 1))

/-- The `Extent3d` height: the `y` component. -/
def extentH (mn mx : IVec3) : Nat :=
  u32cast (wrapI32 (wrapI32 (mx.y - mn.y) + 1))

/-- The `Extent3d` depth: the `z` component. -/
def extentD (mn mx : IVec3) : Nat :=
  u32cast (wrapI32 (wrapI32 (mx.z - mn.z) + 1))

/-- The requested byte length of the dense buffer: the wrapping `u64`
product `width * height * depth * 2`. -/
def bufLen (mn mx : IVec3) : Nat :=
  m64 (m64 (m64 (extentW mn mx * extentH mn mx) * extentD mn mx) * 2)

/-- The embedding of `VolumeLoader::load` (`src/volume/loader.rs`, lines
46–114).  `none` is a panic; `some` is the returned `Result`.  The source
computes `aabb = aabb_max - aabb_min + IVec3::ONE` in wrapping `i32`
arithmetic, casts the components `as u32` for the `Extent3d`, computes the
byte length as the wrapping `u64` product `w * h * d * 2`, calls
`Vec::resize` — which panics deterministically with a capacity overflow
when the requested length exceeds `isize::MAX` bytes — to zero-fill the
buffer, runs the fill loop over the sparse entries, and wraps the buffer
into an `Image`. -/
def VolumeLoader.load (f : VdbFile) : Option (Except VolumeLoaderError Image) :=
  if !f.readOk then some (.error .ioError) else
  if !f.parseOk then some (.error .failedToParseVolume) else
  match f.grids.head? with
  | none => none
  | some _ =>
    if !f.readGridOk then some (.error .failedToParseVolume) else
    if !f.aabbMaxOk then some (.error .gridMetadataError) else
    if !f.aabbMinOk then some (.error .gridMetadataError) else
    let w := extentW f.aabbMin f.aabbMax
    let h := extentH f.aabbMin f.aabbMax
    let d := extentD f.aabbMin f.aabbMax
    let len := bufLen f.aabbMin f.aabbMax
    if 9223372036854775807 < len then none else
    match f.entries.foldlM (fillEntry w h f.aabbMin) (⟨len, []⟩ : ByteBuf) with
    | none => none
    | some buf => some (.ok ⟨w, h, d, buf⟩)

/-- Spec-side accessor: the 16-bit voxel value stored at local coordinates
`(x, y, z)` of the dense buffer, using the linear offset convention of the
spec (low byte first). -/
def Image.voxel (img : Image) (x y z : Nat) : Nat :=
  let idx := (x + y * img.width + z * img.width * img.height) * 2
  img.data.get idx + 256 * img.data.get (idx + 1)

/-- Whether a load result is an accepted (successfully decoded) asset. -/
def accepted (r : Option (Except VolumeLoaderError Image)) : Bool :=
  match r with
  | some (.ok _) => true
  | _ => false

/-- Dimensions and buffer byte length of an accepted load result. -/
def loadedData (r : Option (Except VolumeLoaderError Image)) :
    Option (Nat × Nat × Nat × Nat) :=
  match r with
  | some (.ok img) => some (img.width, img.height, img.depth, img.data.len)
  | _ => none

/-- Voxel query on an accepted load result, at local coordinates. -/
def loadedVoxel (r : Option (Except VolumeLoaderError Image)) (x y z : Nat) :
    Option Nat :=
  match r with
  | some (.ok img) => some (img.voxel x y z)
  | _ => none

/-- The byte offset at which the fill loop stores the entry at position `p`:
`(local.x + local.y * width + local.z * width * height) * 2` with
`local = p - aabb_min`. -/
def byteIndex (w h : Nat) (mn p : IVec3) : Nat :=
  ((p.x - mn.x).toNat + (p.y - mn.y).toNat * w + (p.z - mn.z).toNat * w * h) * 2

/-- The two byte writes the fill loop performs for one in-bounds entry. -/
def entryWrites (w h : Nat) (mn : IVec3) (e : IVec3 × Nat) : List (Nat × Nat) :=
  [(byteIndex w h mn e.1, e.2 % 256), (byteIndex w h mn e.1 + 1, e.2 / 256 % 256)]

/-- Componentwise bounds check of a position against the bounding box. -/
def inBoundsB (mn mx p : IVec3) : Bool :=
  (decide (mn.x ≤ p.x) && decide (p.x ≤ mx.x)) &&
  (decide (mn.y ≤ p.y) && decide (p.y ≤ mx.y)) &&
  (decide (mn.z ≤ p.z) && decide (p.z ≤ mx.z))

/-- A well-formed input wrapper: all library steps succeed and one grid is
available; only the bounding box and the entries vary. -/
def mkFile (mn mx : IVec3) (entries : List (IVec3 × Nat)) : VdbFile :=
  ⟨true, true, ["density"], true, true, true, mn, mx, entries⟩


/-! ### Data model of the settings record (`src/cloud/settings.rs`) -/

/-- Shader-visible field types of the settings record. -/
inductive FieldType where
  | vec3f32
  | u32
  | f32
deriving DecidableEq, Repr

/-- The field list of the `CloudSettings` component (`src/cloud/settings.rs`,
lines 33–56), in declaration order, which is the order of the shader-visible
uniform layout (`ShaderType` derive). -/
def CloudSettings.fields : List (String × FieldType) :=
  [("bounds_min", .vec3f32),
   ("bounds_max", .vec3f32),
   ("steps", .u32),
   ("light_steps", .u32),
   ("light_absorption", .f32),
   ("light_absorption_sun", .f32),
   ("darkness_threshold", .f32),
   ("ray_offset_strength", .f32),
   ("forward_scattering", .f32),
   ("back_scattering", .f32),
   ("base_brightness", .f32),
   ("phase_factor", .f32)]

/-- The field list the specification claims for the per-view settings
uniform (spec §6, repeated verbatim in claim C6). -/
def specClaimedSettingsFields : List (String × FieldType) :=
  [("bounds_min", .vec3f32),
   ("bounds_max", .vec3f32),
   ("steps", .u32),
   ("light_steps", .u32),
   ("light_scattering", .f32),
   ("light_absorption", .f32),
   ("darkness_threshold", .f32),
   ("ray_offset_strength", .f32),
   ("base_brightness", .f32),
   ("phase_factor", .f32)]

/-! ### Data model of the pipeline layout (`src/cloud/pipeline.rs`) -/

/-- Shader stage visibility values used by the layout. -/
inductive ShaderStagesModel where
  | vertexFragment
  | fragment
deriving DecidableEq, Repr

/-- Texture view dimensions used by the layout. -/
inductive TextureDimModel where
  | d2
  | d3
deriving DecidableEq, Repr

/-- The binding types used by the layout.  `uniformBuffer` carries the
`has_dynamic_offset` flag and whether a `min_binding_size` is declared;
`texture` carries filterability, view dimension and multisampling;
`filteringSampler` is `BindingType::Sampler(SamplerBindingType::Filtering)`. -/
inductive BindingTypeModel where
  | uniformBuffer (hasDynamicOffset : Bool) (hasMinBindingSize : Bool)
  | texture (filterable : Bool) (viewDimension : TextureDimModel) (multisampled : Bool)
  | filteringSampler
deriving DecidableEq, Repr

/-- One `BindGroupLayoutEntry`. -/
structure LayoutEntry where
  binding : Nat
  visibility : ShaderStagesModel
  ty : BindingTypeModel
deriving DecidableEq, Repr

/-- The bind group layout `post_process_layout` built by
`CloudPipeline::from_world` (`src/cloud/pipeline.rs`, lines 44–117), entry by
entry in source order. -/
def CloudPipeline.postProcessLayout : List LayoutEntry :=
  [⟨0, .vertexFragment, .uniformBuffer true true⟩,
   ⟨1, .fragment, .uniformBuffer true true⟩,
   ⟨2, .fragment, .texture true .d2 false⟩,
   ⟨3, .fragment, .filteringSampler⟩,
   ⟨4, .fragment, .texture true .d3 false⟩,
   ⟨5, .fragment, .filteringSampler⟩,
   ⟨6, .fragment, .uniformBuffer false true⟩]

/-! ### Data model of the compositing node (`src/cloud/node.rs`) -/

/-- A GPU image as seen by the node through `RenderAssets<Image>`: a texture
view and a sampler, identified by ids. -/
structure GpuImage where
  textureViewId : Nat
  samplerId : Nat
deriving DecidableEq, Repr

/-- The slice of the render world the node reads: whether the cached pipeline
has finished compiling, the optional uniform bindings, the optional
`CloudVolume` resource (a handle), the loaded render assets, and the sampler
owned by the `CloudPipeline` resource. -/
structure RenderWorld where
  pipelineCompiled : Bool
  viewUniformsBinding : Option Nat
  lightBinding : Option Nat
  cloudVolume : Option Nat
  renderAssets : List (Nat × GpuImage)
  settingsBinding : Option Nat
  pipelineSamplerId : Nat
deriving DecidableEq, Repr

/-- Asset lookup, `RenderAssets::get`. -/
def lookupAsset : List (Nat × GpuImage) → Nat → Option GpuImage
  | [], _ => none
  | (k, img) :: rest, hdl => if k = hdl then some img else lookupAsset rest hdl

/-- The ping-pong view target: two color textures and which one currently is
the main texture. -/
structure ViewTarget where
  texA : Nat
  texB : Nat
  mainIsA : Bool
deriving DecidableEq, Repr

/-- The result of `ViewTarget::post_process_write`: the current main texture
as `source`, the other as `destination`, and the view target with the main
texture flipped to the destination. -/
structure PostProcessWrite where
  source : Nat
  destination : Nat
  flipped : ViewTarget
deriving DecidableEq, Repr

/-- `ViewTarget::post_process_write`. -/
def ViewTarget.postProcessWrite (vt : ViewTarget) : PostProcessWrite :=
  if vt.mainIsA then ⟨vt.texA, vt.texB, ⟨vt.texA, vt.texB, false⟩⟩
  else ⟨vt.texB, vt.texA, ⟨vt.texA, vt.texB, true⟩⟩

/-- A concrete resource placed in a bind group slot. -/
inductive BindingResource where
  | buffer (id : Nat)
  | textureView (id : Nat)
  | sampler (id : Nat)
deriving DecidableEq, Repr

/-- The wgpu color load operation. -/
inductive LoadOp where
  | clear (color : Nat)
  | load
deriving DecidableEq, Repr

/-- The wgpu attachment operations: load operation and store flag. -/
structure Operations where
  loadOp : LoadOp
  store : Bool
deriving DecidableEq, Repr

/-- `Operations::default()` in wgpu: `load: LoadOp::Clear(Color::default())`
(clear to zero) and `store: true`. -/
def Operations.default : Operations :=
  ⟨.clear 0, true⟩

/-- Whether an operations value loads the existing attachment contents
instead of clearing them. -/
def Operations.nonClearing (o : Operations) : Bool :=
  match o.loadOp with
  | .load => true
  | .clear _ => false

/-- One color attachment of a render pass. -/
structure ColorAttachment where
  view : Nat
  resolveTarget : Option Nat
  ops : Operations
deriving DecidableEq, Repr

/-- The record of one render pass begun by the node: its color attachments,
whether a depth/stencil attachment was given, how many times a pipeline was
set, the bind group sets (slot, resources, dynamic offsets) and the draws
(vertex range, instance range). -/
structure RenderPassRecord where
  colorAttachments : List (Option ColorAttachment)
  hasDepthStencil : Bool
  pipelineSets : Nat
  bindGroupSets : List (Nat × List BindingResource × List Nat)
  draws : List ((Nat × Nat) × (Nat × Nat))
deriving DecidableEq, Repr

/-- The externally visible effects of one node invocation: the view target
afterwards (recording the ping-pong flip of `post_process_write`, the only
persistent mutation the node can make), the bind groups created on the
device, the render passes begun, and the `Result` (the source returns
`Ok(())` on every path). -/
structure RunOutput where
  viewTarget : ViewTarget
  bindGroupsCreated : List (List BindingResource)
  passes : List RenderPassRecord
  returnedOk : Bool
deriving DecidableEq, Repr

/-- The embedding of `CloudRenderNode::run` (`src/cloud/node.rs`, lines
59–179), following the source order exactly: the pipeline cache check, the
view uniform binding, the light binding, the `CloudVolume` resource, the
loaded texture, then `post_process_write` (which flips the ping-pong
buffer), then the settings binding, and only then the bind group, the render
pass and the draw. -/
def CloudRenderNode.run (world : RenderWorld) (vt : ViewTarget)
    (viewUniformOffset lightsUniformOffset : Nat) : RunOutput :=
  if !world.pipelineCompiled then ⟨vt, [], [], true⟩ else
  match world.viewUniformsBinding with
  | none => ⟨vt, [], [], true⟩
  | some viewBinding =>
  match world.lightBinding with
  | none => ⟨vt, [], [], true⟩
  | some lightBinding =>
  match world.cloudVolume with
  | none => ⟨vt, [], [], true⟩
  | some handle =>
  match lookupAsset world.renderAssets handle with
  | none => ⟨vt, [], [], true⟩
  | some tex =>
  let postProcess := vt.postProcessWrite
  match world.settingsBinding with
  | none => ⟨postProcess.flipped, [], [], true⟩
  | some settingsBinding =>
    let bindGroup : List BindingResource :=
      [.buffer viewBinding,
       .buffer lightBinding,
       .textureView postProcess.source,
       .sampler world.pipelineSamplerId,
       .textureView tex.textureViewId,
       .sampler tex.samplerId,
       .buffer settingsBinding]
    let pass : RenderPassRecord :=
      { colorAttachments := [some ⟨postProcess.destination, none, Operations.default⟩]
        hasDepthStencil := false
        pipelineSets := 1
        bindGroupSets := [(0, bindGroup, [viewUniformOffset, lightsUniformOffset])]
        draws := [((0, 3), (0, 1))] }
    ⟨postProcess.flipped, [bindGroup], [pass], true⟩

/-- A render world with every resource present, used by concrete checks. -/
def fullWorld : RenderWorld :=
  ⟨true, some 1, some 2, some 7, [(7, ⟨40, 41⟩)], some 3, 30⟩


/-! ### Concrete inputs used by the claim checks

`15360 = 0x3C00` and `14336 = 0x3800` are the raw half-precision encodings
of `1.0` and `0.5`. -/

/-- The concrete test grid of the spec: box `[(0,0,0), (1,1,1)]` with entries
`(0,0,0) ↦ 1.0` and `(1,1,1) ↦ 0.5`. -/
def testGridFile : VdbFile :=
  mkFile ⟨0, 0, 0⟩ ⟨1, 1, 1⟩ [(⟨0, 0, 0⟩, 15360), (⟨1, 1, 1⟩, 14336)]

/-- The image the loader produces for `testGridFile`: a `2×2×2` volume of 16
bytes with voxel `(0,0,0)` set to `0x3C00` (bytes `0, 60`) and voxel
`(1,1,1)` at byte offset 14 set to `0x3800` (bytes `0, 56`). -/
def testImage : Image :=
  ⟨2, 2, 2, ⟨16, [(0, 0), (1, 60), (14, 0), (15, 56)]⟩⟩

/-- A container declaring zero grids (everything else well-formed). -/
def zeroGridsFile : VdbFile :=
  { mkFile ⟨0, 0, 0⟩ ⟨0, 0, 0⟩ [] with grids := [] }

/-- A grid whose single entry lies outside the declared bounding box but
whose computed byte offset still lands inside the buffer. -/
def oobAliasFile : VdbFile :=
  mkFile ⟨0, 0, 0⟩ ⟨1, 1, 1⟩ [(⟨3, 0, 0⟩, 15360)]

/-- Metadata with `aabb_max < aabb_min`, giving extent `-1 ≤ 0` on the x
axis, and no entries. -/
def negExtentFile : VdbFile :=
  mkFile ⟨0, 0, 0⟩ ⟨-2, 0, 0⟩ []

/-- A `4194304^3` cube with no entries: the `u64` byte-length product is
`2^67`, which wraps to `0`. -/
def hugeEmptyFile : VdbFile :=
  mkFile ⟨0, 0, 0⟩ ⟨4194303, 4194303, 4194303⟩ []

/-- The same huge cube with one populated entry at the origin (inside the
declared bounds). -/
def hugeOriginFile : VdbFile :=
  mkFile ⟨0, 0, 0⟩ ⟨4194303, 4194303, 4194303⟩ [(⟨0, 0, 0⟩, 15360)]

/-- The same huge cube with one populated entry at `(1,2,3)` (inside the
declared bounds). -/
def hugeEntryFile : VdbFile :=
  mkFile ⟨0, 0, 0⟩ ⟨4194303, 4194303, 4194303⟩ [(⟨1, 2, 3⟩, 17000)]

/-! ### Arithmetic lemmas about the loader -/

theorem m64_eq_of_lt {n : Nat} (h : n < 18446744073709551616) : m64 n = n :=
  Nat.mod_eq_of_lt h

/-- Under the `i32` range constraints, bounds with `min ≤ max` and an extent
below the `u32` wrap give the exact extent on the x axis. -/
theorem extentW_eq {mn mx : IVec3} (hmn : inI32 mn.x) (hmx : inI32 mx.x)
    (hle : mn.x ≤ mx.x) (hlt : mx.x - mn.x + 1 < 4294967296) :
    extentW mn mx = (mx.x - mn.x + 1).toNat := by
  unfold extentW u32cast wrapI32
  unfold inI32 at hmn hmx
  norm_num
  omega

theorem extentH_eq {mn mx : IVec3} (hmn : inI32 mn.y) (hmx : inI32 mx.y)
    (hle : mn.y ≤ mx.y) (hlt : mx.y - mn.y + 1 < 4294967296) :
    extentH mn mx = (mx.y - mn.y + 1).toNat := by
  unfold extentH u32cast wrapI32
  unfold inI32 at hmn hmx
  norm_num
  omega

theorem extentD_eq {mn mx : IVec3} (hmn : inI32 mn.z) (hmx : inI32 mx.z)
    (hle : mn.z ≤ mx.z) (hlt : mx.z - mn.z + 1 < 4294967296) :
    extentD mn mx = (mx.z - mn.z + 1).toNat := by
  unfold extentD u32cast wrapI32
  unfold inI32 at hmn hmx
  norm_num
  omega

/-- When the true byte length fits in `u64`, the wrapping computation is
exact. -/
theorem bufLen_eq {mn mx : IVec3}
    (hfit : extentW mn mx * extentH mn mx * extentD mn mx * 2 < 18446744073709551616) :
    bufLen mn mx = extentW mn mx * extentH mn mx * extentD mn mx * 2 := by
  unfold bufLen
  generalize extentW mn mx = w at *
  generalize extentH mn mx = h at *
  generalize extentD mn mx = d at *
  rcases Nat.eq_zero_or_pos d with hd | hd
  · subst hd
    simp [m64]
  · have h1 : w * h ≤ w * h * d := Nat.le_mul_of_pos_right _ hd
    have h2 : w * h * d ≤ w * h * d * 2 := by omega
    have e1 : m64 (w * h) = w * h := m64_eq_of_lt (by omega)
    have e2 : m64 (w * h * d) = w * h * d := m64_eq_of_lt (by omega)
    have e3 : m64 (w * h * d * 2) = w * h * d * 2 := m64_eq_of_lt hfit
    rw [e1, e2, e3]

/-- The linear voxel index is below the voxel count of the box. -/
theorem lin_lt {w h d lx ly lz : Nat} (hx : lx < w) (hy : ly < h) (hz : lz < d) :
    lx + ly * w + lz * w * h < w * h * d := by
  have h1 : ly * w + w ≤ h * w := by
    have := Nat.mul_le_mul_right w (Nat.succ_le_of_lt hy)
    simpa [Nat.succ_mul] using this
  have h2 : lz * (w * h) + w * h ≤ d * (w * h) := by
    have := Nat.mul_le_mul_right (w * h) (Nat.succ_le_of_lt hz)
    simpa [Nat.succ_mul] using this
  have h3 : lx + ly * w < w * h := by
    have h4 : h * w = w * h := Nat.mul_comm h w
    omega
  have h5 : lz * w * h = lz * (w * h) := by ring
  have h6 : w * h * d = d * (w * h) := by ring
  omega

/-- The wrapping `usize` offset computation of the fill loop collapses to the
plain linear offset when the box fits. -/
theorem index_collapse {w h d lx ly lz : Nat} (hx : lx < w) (hy : ly < h)
    (hz : lz < d) (hfit : w * h * d * 2 < 18446744073709551616) :
    m64 (m64 (lx + m64 (ly * w)) + m64 (m64 (lz * w) * h)) * 2 % 18446744073709551616
      = (lx + ly * w + lz * w * h) * 2 := by
  have hh1 : 1 ≤ h := by omega
  have hlin : lx + ly * w + lz * w * h < w * h * d := lin_lt hx hy hz
  have hwd : w * h * d ≤ w * h * d * 2 := by omega
  have c1 : lz * w * 1 ≤ lz * w * h := Nat.mul_le_mul_left _ hh1
  have b1 : m64 (ly * w) = ly * w := m64_eq_of_lt (by omega)
  have b2 : m64 (lz * w) = lz * w := m64_eq_of_lt (by omega)
  rw [b1, b2]
  have b3 : m64 (lz * w * h) = lz * w * h := m64_eq_of_lt (by omega)
  have b4 : m64 (lx + ly * w) = lx + ly * w := m64_eq_of_lt (by omega)
  rw [b3, b4]
  have b5 : m64 (lx + ly * w + lz * w * h) = lx + ly * w + lz * w * h :=
    m64_eq_of_lt (by omega)
  rw [b5]
  exact Nat.mod_eq_of_lt (by omega)

/-- No halvings are needed for values already inside the 24-bit range. -/
theorem f32scale_eq_zero {n : Nat} (h : n < 16777216) : f32scale n = 0 := by
  unfold f32scale
  rw [List.countP_eq_zero]
  intro e _
  simp only [decide_eq_true_eq]
  have := Nat.div_le_self n (2 ^ e)
  omega

/-- The `f32` rounding is the identity on magnitudes up to `2^24`. -/
theorem f32roundNat_eq_self {n : Nat} (h : n ≤ 16777216) : f32roundNat n = n := by
  rcases Nat.lt_or_ge n 16777216 with hlt | hge
  · unfold f32roundNat
    rw [f32scale_eq_zero hlt]
    simp
  · have heq : n = 16777216 := by omega
    subst heq
    decide

/-- Integers of magnitude up to `2^24` pass through `f32` unchanged. -/
theorem f32ofInt_eq_self {i : Int} (h : i.natAbs ≤ 16777216) : f32ofInt i = i := by
  unfold f32ofInt
  by_cases hi : i < 0
  · rw [if_pos hi, f32roundNat_eq_self h]
    omega
  · rw [if_neg hi, f32roundNat_eq_self h]
    omega

/-- Under in-bounds and `f32`-exactness hypotheses one fill step is exactly
the two byte writes at the spec offset, and cannot panic. -/
theorem fillEntry_eq {w h d : Nat} {mn p : IVec3} {v : Nat} {buf : ByteBuf}
    (hpx : mn.x ≤ p.x) (hpy : mn.y ≤ p.y) (hpz : mn.z ≤ p.z)
    (hx : (p.x - mn.x).toNat < w) (hy : (p.y - mn.y).toNat < h)
    (hz : (p.z - mn.z).toNat < d)
    (hw24 : w ≤ 16777216) (hh24 : h ≤ 16777216) (hd24 : d ≤ 16777216)
    (hp24 : p.f32exact) (hmn24 : mn.f32exact)
    (hfit : w * h * d * 2 < 18446744073709551616)
    (hlen : buf.len = w * h * d * 2) :
    fillEntry w h mn buf (p, v) =
      some ((buf.push (byteIndex w h mn p) (v % 256)).push
        (byteIndex w h mn p + 1) (v / 256 % 256)) := by
  obtain ⟨hp24x, hp24y, hp24z⟩ := hp24
  obtain ⟨hmn24x, hmn24y, hmn24z⟩ := hmn24
  have hlin : (p.x - mn.x).toNat + (p.y - mn.y).toNat * w + (p.z - mn.z).toNat * w * h
      < w * h * d := lin_lt hx hy hz
  have sx : satUsize (f32ofInt (f32ofInt p.x - f32ofInt mn.x)) = (p.x - mn.x).toNat := by
    rw [f32ofInt_eq_self hp24x, f32ofInt_eq_self hmn24x, f32ofInt_eq_self (by omega)]
    unfold satUsize
    rw [if_neg (by omega)]
    exact Nat.min_eq_left (by omega)
  have sy : satUsize (f32ofInt (f32ofInt p.y - f32ofInt mn.y)) = (p.y - mn.y).toNat := by
    rw [f32ofInt_eq_self hp24y, f32ofInt_eq_self hmn24y, f32ofInt_eq_self (by omega)]
    unfold satUsize
    rw [if_neg (by omega)]
    exact Nat.min_eq_left (by omega)
  have sz : satUsize (f32ofInt (f32ofInt p.z - f32ofInt mn.z)) = (p.z - mn.z).toNat := by
    rw [f32ofInt_eq_self hp24z, f32ofInt_eq_self hmn24z, f32ofInt_eq_self (by omega)]
    unfold satUsize
    rw [if_neg (by omega)]
    exact Nat.min_eq_left (by omega)
  have hidx : m64 (m64 ((p.x - mn.x).toNat + m64 ((p.y - mn.y).toNat * w)) +
      m64 (m64 ((p.z - mn.z).toNat * w) * h)) * 2 % 18446744073709551616
      = byteIndex w h mn p := index_collapse hx hy hz hfit
  have hblt : byteIndex w h mn p + 1 < w * h * d * 2 := by
    unfold byteIndex
    omega
  simp only [fillEntry, sx, sy, sz, hidx, f16ToNeBytes]
  rw [if_pos (by rw [hlen]; omega)]
  rw [if_pos (by simp [ByteBuf.push, hlen]; omega)]

/-- The whole fill loop succeeds on in-bounds entries and appends exactly the
per-entry writes, in order. -/
theorem foldl_fill_eq {w h d : Nat} {mn : IVec3}
    (hw24 : w ≤ 16777216) (hh24 : h ≤ 16777216) (hd24 : d ≤ 16777216)
    (hmn24 : mn.f32exact)
    (hfit : w * h * d * 2 < 18446744073709551616) :
    ∀ (entries : List (IVec3 × Nat)) (buf : ByteBuf),
      buf.len = w * h * d * 2 →
      (∀ e ∈ entries, mn.x ≤ e.1.x ∧ mn.y ≤ e.1.y ∧ mn.z ≤ e.1.z ∧
        (e.1.x - mn.x).toNat < w ∧ (e.1.y - mn.y).toNat < h ∧
        (e.1.z - mn.z).toNat < d ∧ e.1.f32exact) →
      entries.foldlM (fillEntry w h mn) buf =
        some ⟨buf.len, buf.writes ++ entries.flatMap (entryWrites w h mn)⟩ := by
  intro entries
  induction entries with
  | nil =>
    intro buf hlen _
    simp [List.foldlM]
  | cons e t ih =>
    intro buf hlen hball
    have he := hball e (List.mem_cons_self e t)
    have hstep := @fillEntry_eq w h d mn e.1 e.2 buf he.1 he.2.1 he.2.2.1
      he.2.2.2.1 he.2.2.2.2.1 he.2.2.2.2.2.1 hw24 hh24 hd24
      he.2.2.2.2.2.2 hmn24 hfit hlen
    rw [List.foldlM_cons, hstep]
    have hrest := ih ((buf.push (byteIndex w h mn e.1) (e.2 % 256)).push
        (byteIndex w h mn e.1 + 1) (e.2 / 256 % 256))
      (by simp [ByteBuf.push, hlen])
      (fun e' he' => hball e' (List.mem_cons_of_mem e he'))
    simp only [Option.bind_eq_bind, Option.some_bind] at *
    rw [hrest]
    simp [ByteBuf.push, entryWrites]

/-- Folding the last-write scan from an arbitrary accumulator. -/
theorem lookupLast_step (j : Nat) :
    ∀ (ws : List (Nat × Nat)) (init : Option Nat),
      ws.foldl (fun acc w => if w.1 = j then some w.2 else acc) init =
        match lookupLast ws j with
        | some v => some v
        | none => init := by
  intro ws
  induction ws with
  | nil => intro init; simp [lookupLast]
  | cons a t ih =>
    intro init
    rw [List.foldl_cons, ih]
    have h2 : lookupLast (a :: t) j =
        match lookupLast t j with
        | some v => some v
        | none => if a.1 = j then some a.2 else none := by
      unfold lookupLast
      rw [List.foldl_cons]
      exact ih _
    rw [h2]
    rcases lookupLast t j with _ | v
    · by_cases hc : a.1 = j <;> simp [hc]
    · rfl

/-- Last-write scan over an append: the right part wins when it has a
match. -/
theorem lookupLast_append (ws1 ws2 : List (Nat × Nat)) (j : Nat) :
    lookupLast (ws1 ++ ws2) j =
      match lookupLast ws2 j with
      | some v => some v
      | none => lookupLast ws1 j := by
  show (ws1 ++ ws2).foldl (fun acc w => if w.1 = j then some w.2 else acc) none = _
  rw [List.foldl_append]
  exact lookupLast_step j ws2 _

/-- A scan over writes that all miss `j` finds nothing. -/
theorem lookupLast_of_notMem (j : Nat) :
    ∀ ws : List (Nat × Nat), (∀ w ∈ ws, w.1 ≠ j) → lookupLast ws j = none := by
  intro ws
  induction ws with
  | nil => intro; rfl
  | cons a t ih =>
    intro hmiss
    unfold lookupLast
    rw [List.foldl_cons, if_neg (hmiss a (List.mem_cons_self a t))]
    exact ih fun w hw => hmiss w (List.mem_cons_of_mem a hw)

/-- The linear voxel offset is injective on local coordinates inside the
box. -/
theorem lin_inj {w h a b c a' b' c' : Nat} (ha : a < w) (ha' : a' < w)
    (hb : b < h) (hb' : b' < h)
    (heq : a + b * w + c * (w * h) = a' + b' * w + c' * (w * h)) :
    a = a' ∧ b = b' ∧ c = c' := by
  have hw : 0 < w := Nat.lt_of_le_of_lt (Nat.zero_le a) ha
  have hh : 0 < h := Nat.lt_of_le_of_lt (Nat.zero_le b) hb
  have e1 : a + b * w + c * (w * h) = a + w * (b + h * c) := by ring
  have e2 : a' + b' * w + c' * (w * h) = a' + w * (b' + h * c') := by ring
  rw [e1, e2] at heq
  have m1 : (a + w * (b + h * c)) % w = a := by
    rw [Nat.add_mul_mod_self_left]
    exact Nat.mod_eq_of_lt ha
  have m2 : (a' + w * (b' + h * c')) % w = a' := by
    rw [Nat.add_mul_mod_self_left]
    exact Nat.mod_eq_of_lt ha'
  have haa : a = a' := by rw [← m1, ← m2, heq]
  subst haa
  have hk : b + h * c = b' + h * c' :=
    Nat.eq_of_mul_eq_mul_left hw (by omega)
  have m3 : (b + h * c) % h = b := by
    rw [Nat.add_mul_mod_self_left]
    exact Nat.mod_eq_of_lt hb
  have m4 : (b' + h * c') % h = b' := by
    rw [Nat.add_mul_mod_self_left]
    exact Nat.mod_eq_of_lt hb'
  have hbb : b = b' := by rw [← m3, ← m4, hk]
  subst hbb
  exact ⟨rfl, rfl, Nat.eq_of_mul_eq_mul_left hh (by omega)⟩

/-- Byte offsets of voxels are even, so a high byte never collides with a
low byte. -/
theorem byteIndex_succ_ne {w h : Nat} {mn p q : IVec3} :
    byteIndex w h mn p + 1 ≠ byteIndex w h mn q := by
  unfold byteIndex
  omega

/-- Distinct in-box positions get distinct byte offsets. -/
theorem byteIndex_inj {w h : Nat} {mn p q : IVec3}
    (hp : mn.x ≤ p.x ∧ mn.y ≤ p.y ∧ mn.z ≤ p.z)
    (hq : mn.x ≤ q.x ∧ mn.y ≤ q.y ∧ mn.z ≤ q.z)
    (hpx : (p.x - mn.x).toNat < w) (hpy : (p.y - mn.y).toNat < h)
    (hqx : (q.x - mn.x).toNat < w) (hqy : (q.y - mn.y).toNat < h)
    (hne : p ≠ q) :
    byteIndex w h mn p ≠ byteIndex w h mn q := by
  intro heq
  unfold byteIndex at heq
  have h0 := Nat.eq_of_mul_eq_mul_right (show 0 < 2 by omega) heq
  have a1 : (p.z - mn.z).toNat * w * h = (p.z - mn.z).toNat * (w * h) := by ring
  have a2 : (q.z - mn.z).toNat * w * h = (q.z - mn.z).toNat * (w * h) := by ring
  rw [a1, a2] at h0
  obtain ⟨e1, e2, e3⟩ := lin_inj hpx hqx hpy hqy h0
  apply hne
  obtain ⟨px, py, pz⟩ := p
  obtain ⟨qx, qy, qz⟩ := q
  simp only [IVec3.mk.injEq]
  simp only at e1 e2 e3 hp hq
  refine ⟨by omega, by omega, by omega⟩

/-- Scanning the fill-loop writes for a byte of a populated entry returns
that entry, when the byte offsets of the entries are pairwise distinct. -/
theorem lookupLast_flatMap_hit {w h : Nat} {mn : IVec3} :
    ∀ (entries : List (IVec3 × Nat)) (e : IVec3 × Nat), e ∈ entries →
      entries.Pairwise (fun e1 e2 => byteIndex w h mn e1.1 ≠ byteIndex w h mn e2.1) →
      lookupLast (entries.flatMap (entryWrites w h mn)) (byteIndex w h mn e.1)
          = some (e.2 % 256) ∧
      lookupLast (entries.flatMap (entryWrites w h mn)) (byteIndex w h mn e.1 + 1)
          = some (e.2 / 256 % 256) := by
  intro entries
  induction entries with
  | nil => intro e he; exact absurd he (List.not_mem_nil e)
  | cons a t ih =>
    intro e he hpw
    rw [List.pairwise_cons] at hpw
    rw [List.flatMap_cons]
    rcases List.mem_cons.mp he with rfl | het
    · have hmiss0 : ∀ v ∈ t.flatMap (entryWrites w h mn),
          v.1 ≠ byteIndex w h mn e.1 := by
        intro v hv
        obtain ⟨e', he', hve'⟩ := List.mem_flatMap.mp hv
        have hne := hpw.1 e' he'
        simp only [entryWrites, List.mem_cons, List.mem_singleton] at hve'
        rcases hve' with rfl | rfl | hfalse
        · exact fun hc => hne hc.symm
        · exact fun hc => byteIndex_succ_ne hc
        · exact absurd hfalse (List.not_mem_nil v)
      have hmiss1 : ∀ v ∈ t.flatMap (entryWrites w h mn),
          v.1 ≠ byteIndex w h mn e.1 + 1 := by
        intro v hv
        obtain ⟨e', he', hve'⟩ := List.mem_flatMap.mp hv
        have hne := hpw.1 e' he'
        simp only [entryWrites, List.mem_cons, List.mem_singleton] at hve'
        rcases hve' with rfl | rfl | hfalse
        · exact fun hc => byteIndex_succ_ne hc.symm
        · exact fun hc => hne (by omega)
        · exact absurd hfalse (List.not_mem_nil v)
      constructor
      · rw [lookupLast_append, lookupLast_of_notMem _ _ hmiss0]
        unfold lookupLast entryWrites
        simp only [List.foldl_cons, List.foldl_nil]
        simp [byteIndex_succ_ne]
      · rw [lookupLast_append, lookupLast_of_notMem _ _ hmiss1]
        unfold lookupLast entryWrites
        simp only [List.foldl_cons, List.foldl_nil]
        simp
    · have hres := ih e het hpw.2
      constructor
      · rw [lookupLast_append, hres.1]
      · rw [lookupLast_append, hres.2]

/-- Scanning the fill-loop writes for a byte no entry touches finds
nothing. -/
theorem lookupLast_flatMap_miss {w h : Nat} {mn : IVec3} (j : Nat)
    (entries : List (IVec3 × Nat))
    (hmiss : ∀ e ∈ entries, byteIndex w h mn e.1 ≠ j ∧ byteIndex w h mn e.1 + 1 ≠ j) :
    lookupLast (entries.flatMap (entryWrites w h mn)) j = none := by
  apply lookupLast_of_notMem
  intro v hv
  obtain ⟨e', he', hve'⟩ := List.mem_flatMap.mp hv
  have hm := hmiss e' he'
  simp only [entryWrites, List.mem_cons, List.mem_singleton] at hve'
  rcases hve' with rfl | rfl | hfalse
  · exact hm.1
  · exact hm.2
  · exact absurd hfalse (List.not_mem_nil v)

/-- Generic collapse of the wrapping byte-length chain when the true product
fits in `u64`. -/
theorem m64_chain_eq {w h d : Nat} (hfit : w * h * d * 2 < 18446744073709551616) :
    m64 (m64 (m64 (w * h) * d) * 2) = w * h * d * 2 := by
  rcases Nat.eq_zero_or_pos d with hd | hd
  · subst hd
    simp [m64]
  · have h1 : w * h ≤ w * h * d := Nat.le_mul_of_pos_right _ hd
    have h2 : w * h * d ≤ w * h * d * 2 := by omega
    have e1 : m64 (w * h) = w * h := m64_eq_of_lt (by omega)
    have e2 : m64 (w * h * d) = w * h * d := m64_eq_of_lt (by omega)
    have e3 : m64 (w * h * d * 2) = w * h * d * 2 := m64_eq_of_lt hfit
    rw [e1, e2, e3]

/-- Every fill step keeps the buffer length and the in-range invariant of the
recorded writes. -/
theorem fold_writes_bound {w h : Nat} {mn : IVec3} :
    ∀ (entries : List (IVec3 × Nat)) (buf buf' : ByteBuf),
      (∀ v ∈ buf.writes, v.1 < buf.len) →
      entries.foldlM (fillEntry w h mn) buf = some buf' →
      buf'.len = buf.len ∧ (∀ v ∈ buf'.writes, v.1 < buf'.len) := by
  intro entries
  induction entries with
  | nil =>
    intro buf buf' hinv hfold
    simp [List.foldlM] at hfold
    subst hfold
    exact ⟨rfl, hinv⟩
  | cons e t ih =>
    intro buf buf' hinv hfold
    rw [List.foldlM_cons] at hfold
    rcases hstep : fillEntry w h mn buf e with _ | b1
    · rw [hstep] at hfold
      simp at hfold
    · rw [hstep] at hfold
      simp only [Option.bind_eq_bind, Option.some_bind] at hfold
      have hb1 : b1.len = buf.len ∧ (∀ v ∈ b1.writes, v.1 < b1.len) := by
        unfold fillEntry at hstep
        dsimp only at hstep
        split at hstep
        · rename_i hg1
          split at hstep
          · rename_i hg2
            injection hstep with heq
            subst heq
            refine ⟨rfl, ?_⟩
            intro v hv
            simp only [ByteBuf.push, List.mem_append, List.mem_singleton] at hv
            rcases hv with (hv | rfl) | rfl
            · simpa [ByteBuf.push] using hinv v hv
            · simpa [ByteBuf.push] using hg1
            · simpa [ByteBuf.push] using hg2
          · exact absurd hstep (by simp)
        · exact absurd hstep (by simp)
      have := ih b1 buf' hb1.2 hfold
      exact ⟨this.1.trans hb1.1, this.2⟩

/-- Inversion of a successful load: the image carries the computed extents,
the buffer has the computed length, and every recorded write is inside it. -/
theorem load_ok_inv {f : VdbFile} {img : Image}
    (h : VolumeLoader.load f = some (.ok img)) :
    img.width = extentW f.aabbMin f.aabbMax ∧
    img.height = extentH f.aabbMin f.aabbMax ∧
    img.depth = extentD f.aabbMin f.aabbMax ∧
    img.data.len = bufLen f.aabbMin f.aabbMax ∧
    (∀ v ∈ img.data.writes, v.1 < img.data.len) := by
  unfold VolumeLoader.load at h
  split at h
  · simp at h
  · split at h
    · simp at h
    · split at h
      · simp at h
      · split at h
        · simp at h
        · split at h
          · simp at h
          · split at h
            · simp at h
            · dsimp only at h
              split at h
              · simp at h
              · split at h
                · simp at h
                · rename_i buf hfold
                  have hb := fold_writes_bound f.entries ⟨bufLen f.aabbMin f.aabbMax, []⟩
                    buf (by simp) hfold
                  injection h with h1
                  injection h1 with h2
                  subst h2
                  exact ⟨rfl, rfl, rfl, hb.1, hb.2⟩

/-- Full characterization of a load of a well-formed file whose entries are
all inside the box and whose box fits the machine arithmetic. -/
theorem load_mkFile_eq {mn mx : IVec3} {entries : List (IVec3 × Nat)}
    (h24W : extentW mn mx ≤ 16777216) (h24H : extentH mn mx ≤ 16777216)
    (h24D : extentD mn mx ≤ 16777216) (hmn24 : mn.f32exact)
    (hball : ∀ e ∈ entries, mn.x ≤ e.1.x ∧ mn.y ≤ e.1.y ∧ mn.z ≤ e.1.z ∧
      (e.1.x - mn.x).toNat < extentW mn mx ∧ (e.1.y - mn.y).toNat < extentH mn mx ∧
      (e.1.z - mn.z).toNat < extentD mn mx ∧ e.1.f32exact)
    (hfit : extentW mn mx * extentH mn mx * extentD mn mx * 2 < 9223372036854775808) :
    VolumeLoader.load (mkFile mn mx entries) =
      some (.ok ⟨extentW mn mx, extentH mn mx, extentD mn mx,
        ⟨bufLen mn mx,
         entries.flatMap (entryWrites (extentW mn mx) (extentH mn mx) mn)⟩⟩) := by
  have hlen : bufLen mn mx = extentW mn mx * extentH mn mx * extentD mn mx * 2 :=
    bufLen_eq (by omega)
  have hfold := @foldl_fill_eq (extentW mn mx) (extentH mn mx) (extentD mn mx) mn
    h24W h24H h24D hmn24 (by omega) entries ⟨bufLen mn mx, []⟩ hlen hball
  unfold VolumeLoader.load mkFile
  dsimp only
  rw [if_neg (show ¬ (9223372036854775807 < bufLen mn mx) by omega)]
  rw [hfold]
  simp

/-! ### Claim theorems -/

/-- Claim C1, amended.  For a well-formed sparse grid — `i32` bounds with
`min ≤ max`, every populated position inside `[aabb_min, aabb_max]`, pairwise
distinct positions, 16-bit values — whose coordinates are exactly
representable in `f32` (magnitude at most `2^24`), whose extent components
are at most `2^24` (so the `f32` local-coordinate subtraction is exact), and
whose byte length `ex*ey*ez*2` stays below the `Vec` allocator limit
`isize::MAX` (below `2^63`), decoding succeeds, writes each populated entry
at byte offset `(local.x + local.y*ex + local.z*ex*ey)*2`, and querying
every populated coordinate of the dense buffer returns the original value
while every non-populated coordinate returns exactly 0. -/
theorem c1_roundtrip_amended (mn mx : IVec3) (entries : List (IVec3 × Nat))
    (hmn : mn.inRange) (hmx : mx.inRange) (hbox : mn.le mx)
    (hmn24 : mn.f32exact) (hmx24 : mx.f32exact)
    (hax : mx.x - mn.x + 1 ≤ 16777216) (hay : mx.y - mn.y + 1 ≤ 16777216)
    (haz : mx.z - mn.z + 1 ≤ 16777216)
    (hfit : (mx.x - mn.x + 1).toNat * (mx.y - mn.y + 1).toNat *
      (mx.z - mn.z + 1).toNat * 2 < 9223372036854775808)
    (hball : ∀ e ∈ entries, mn.le e.1 ∧ e.1.le mx)
    (hv16 : ∀ e ∈ entries, e.2 < 65536)
    (hdist : entries.Pairwise (fun e1 e2 => e1.1 ≠ e2.1)) :
    accepted (VolumeLoader.load (mkFile mn mx entries)) = true ∧
    (∀ e ∈ entries,
      loadedVoxel (VolumeLoader.load (mkFile mn mx entries))
        (e.1.x - mn.x).toNat (e.1.y - mn.y).toNat (e.1.z - mn.z).toNat = some e.2) ∧
    (∀ qx qy qz : Nat,
      qx < (mx.x - mn.x + 1).toNat → qy < (mx.y - mn.y + 1).toNat →
      qz < (mx.z - mn.z + 1).toNat →
      (∀ e ∈ entries, e.1 ≠ ⟨mn.x + qx, mn.y + qy, mn.z + qz⟩) →
      loadedVoxel (VolumeLoader.load (mkFile mn mx entries)) qx qy qz = some 0) := by
  obtain ⟨hmnx, hmny, hmnz⟩ := hmn
  obtain ⟨hmxx, hmxy, hmxz⟩ := hmx
  obtain ⟨hbx, hby, hbz⟩ := hbox
  have hW : extentW mn mx = (mx.x - mn.x + 1).toNat :=
    extentW_eq hmnx hmxx hbx (by omega)
  have hH : extentH mn mx = (mx.y - mn.y + 1).toNat :=
    extentH_eq hmny hmxy hby (by omega)
  have hD : extentD mn mx = (mx.z - mn.z + 1).toNat :=
    extentD_eq hmnz hmxz hbz (by omega)
  have h24W : extentW mn mx ≤ 16777216 := by rw [hW]; omega
  have h24H : extentH mn mx ≤ 16777216 := by rw [hH]; omega
  have h24D : extentD mn mx ≤ 16777216 := by rw [hD]; omega
  have hfit' : extentW mn mx * extentH mn mx * extentD mn mx * 2
      < 9223372036854775808 := by
    rw [hW, hH, hD]
    exact hfit
  have hball' : ∀ e ∈ entries, mn.x ≤ e.1.x ∧ mn.y ≤ e.1.y ∧ mn.z ≤ e.1.z ∧
      (e.1.x - mn.x).toNat < extentW mn mx ∧ (e.1.y - mn.y).toNat < extentH mn mx ∧
      (e.1.z - mn.z).toNat < extentD mn mx ∧ e.1.f32exact := by
    intro e he
    obtain ⟨⟨h1, h2, h3⟩, h4, h5, h6⟩ := hball e he
    have hex : e.1.f32exact := by
      refine ⟨?_, ?_, ?_⟩
      · have := hmn24.1
        have := hmx24.1
        omega
      · have := hmn24.2.1
        have := hmx24.2.1
        omega
      · have := hmn24.2.2
        have := hmx24.2.2
        omega
    rw [hW, hH, hD]
    refine ⟨h1, h2, h3, by omega, by omega, by omega, hex⟩
  have hload := load_mkFile_eq h24W h24H h24D hmn24 hball' hfit'
  have hpw : entries.Pairwise (fun e1 e2 =>
      byteIndex (extentW mn mx) (extentH mn mx) mn e1.1 ≠
      byteIndex (extentW mn mx) (extentH mn mx) mn e2.1) := by
    refine List.Pairwise.imp_of_mem ?_ hdist
    intro e1 e2 h1 h2 hne
    have hb1 := hball' e1 h1
    have hb2 := hball' e2 h2
    exact byteIndex_inj ⟨hb1.1, hb1.2.1, hb1.2.2.1⟩ ⟨hb2.1, hb2.2.1, hb2.2.2.1⟩
      hb1.2.2.2.1 hb1.2.2.2.2.1 hb2.2.2.2.1 hb2.2.2.2.2.1 hne
  refine ⟨?_, ?_, ?_⟩
  · rw [hload]
    rfl
  · intro e he
    have hhit := lookupLast_flatMap_hit entries e he hpw
    rw [hload]
    unfold loadedVoxel Image.voxel ByteBuf.get
    dsimp only
    rw [show ((e.1.x - mn.x).toNat + (e.1.y - mn.y).toNat * extentW mn mx +
        (e.1.z - mn.z).toNat * extentW mn mx * extentH mn mx) * 2 =
        byteIndex (extentW mn mx) (extentH mn mx) mn e.1 from rfl]
    rw [hhit.1, hhit.2]
    have := hv16 e he
    simp only [Option.getD_some, Option.some.injEq]
    omega
  · intro qx qy qz hqx hqy hqz hnot
    have hq_in : mn.x ≤ mn.x + (qx : Int) ∧ mn.y ≤ mn.y + (qy : Int) ∧
        mn.z ≤ mn.z + (qz : Int) := by omega
    have hqlocx : ((mn.x + (qx : Int)) - mn.x).toNat = qx := by omega
    have hqlocy : ((mn.y + (qy : Int)) - mn.y).toNat = qy := by omega
    have hqlocz : ((mn.z + (qz : Int)) - mn.z).toNat = qz := by omega
    have hjq : byteIndex (extentW mn mx) (extentH mn mx) mn
        ⟨mn.x + qx, mn.y + qy, mn.z + qz⟩ =
        (qx + qy * extentW mn mx + qz * extentW mn mx * extentH mn mx) * 2 := by
      unfold byteIndex
      dsimp only
      rw [hqlocx, hqlocy, hqlocz]
    have hmiss0 : ∀ e ∈ entries,
        byteIndex (extentW mn mx) (extentH mn mx) mn e.1 ≠
          (qx + qy * extentW mn mx + qz * extentW mn mx * extentH mn mx) * 2 ∧
        byteIndex (extentW mn mx) (extentH mn mx) mn e.1 + 1 ≠
          (qx + qy * extentW mn mx + qz * extentW mn mx * extentH mn mx) * 2 := by
      intro e he
      have hb := hball' e he
      constructor
      · rw [← hjq]
        refine byteIndex_inj ⟨hb.1, hb.2.1, hb.2.2.1⟩
          ⟨hq_in.1, hq_in.2.1, hq_in.2.2⟩ hb.2.2.2.1 hb.2.2.2.2.1 ?_ ?_ (hnot e he)
        · dsimp only
          rw [hqlocx, hW]
          omega
        · dsimp only
          rw [hqlocy, hH]
          omega
      · rw [← hjq]
        exact byteIndex_succ_ne
    have hmiss1 : ∀ e ∈ entries,
        byteIndex (extentW mn mx) (extentH mn mx) mn e.1 ≠
          (qx + qy * extentW mn mx + qz * extentW mn mx * extentH mn mx) * 2 + 1 ∧
        byteIndex (extentW mn mx) (extentH mn mx) mn e.1 + 1 ≠
          (qx + qy * extentW mn mx + qz * extentW mn mx * extentH mn mx) * 2 + 1 := by
      intro e he
      constructor
      · intro hc
        rw [← hjq] at hc
        exact byteIndex_succ_ne hc.symm
      · intro hc
        exact (hmiss0 e he).1 (by omega)
    rw [hload]
    unfold loadedVoxel Image.voxel ByteBuf.get
    dsimp only
    rw [lookupLast_flatMap_miss _ entries hmiss0,
      lookupLast_flatMap_miss _ entries hmiss1]
    rfl

/-- Claim C1 witness: the amended round-trip theorem applied at the concrete
test grid — querying the populated voxel `(0,0,0)` returns `0x3C00`. -/
theorem c1_witness :
    loadedVoxel (VolumeLoader.load testGridFile) 0 0 0 = some 15360 := by
  have h := (c1_roundtrip_amended ⟨0, 0, 0⟩ ⟨1, 1, 1⟩
      [(⟨0, 0, 0⟩, 15360), (⟨1, 1, 1⟩, 14336)]
      (by decide) (by decide) (by decide) (by decide) (by decide) (by decide)
      (by decide) (by decide) (by decide) (by decide) (by decide)
      (by decide)).2.1 (⟨0, 0, 0⟩, 15360) (by decide)
  exact h

/-- Claim C1 counterexample: the claim as stated is false.  This grid is
well-formed in the sense the claim defines (its only populated position lies
inside `[aabb_min, aabb_max]`), but the box is `4194304^3`, the wrapping
`u64` byte length `2^67` collapses to `0`, and the decode panics at the
first buffer write instead of producing a queryable dense buffer. -/
theorem c1_counterexample :
    (hugeEntryFile.entries.all fun e =>
      inBoundsB hugeEntryFile.aabbMin hugeEntryFile.aabbMax e.1) = true ∧
    VolumeLoader.load hugeEntryFile = none :=
  ⟨by decide, rfl⟩

/-- Claim C10, amended.  Under the precondition that every populated position
lies within `[aabb_min, aabb_max]` — and the additional conditions, forced
by the machine arithmetic of the loader, that coordinates are exactly
representable in `f32` (magnitude at most `2^24`), extent components are at
most `2^24`, and the byte length `ex*ey*ez*2` stays below the allocator
limit `2^63` — the computed byte index of every entry satisfies
`index + 1 < buffer length`, every buffer write of the fill loop is in
bounds, and decoding cannot panic. -/
theorem c10_inbounds_amended (mn mx : IVec3) (entries : List (IVec3 × Nat))
    (hmn : mn.inRange) (hmx : mx.inRange) (hbox : mn.le mx)
    (hmn24 : mn.f32exact) (hmx24 : mx.f32exact)
    (hax : mx.x - mn.x + 1 ≤ 16777216) (hay : mx.y - mn.y + 1 ≤ 16777216)
    (haz : mx.z - mn.z + 1 ≤ 16777216)
    (hfit : (mx.x - mn.x + 1).toNat * (mx.y - mn.y + 1).toNat *
      (mx.z - mn.z + 1).toNat * 2 < 9223372036854775808)
    (hball : ∀ e ∈ entries, mn.le e.1 ∧ e.1.le mx) :
    accepted (VolumeLoader.load (mkFile mn mx entries)) = true ∧
    (∀ e ∈ entries,
      byteIndex (extentW mn mx) (extentH mn mx) mn e.1 + 1 < bufLen mn mx) := by
  obtain ⟨hmnx, hmny, hmnz⟩ := hmn
  obtain ⟨hmxx, hmxy, hmxz⟩ := hmx
  obtain ⟨hbx, hby, hbz⟩ := hbox
  have hW : extentW mn mx = (mx.x - mn.x + 1).toNat :=
    extentW_eq hmnx hmxx hbx (by omega)
  have hH : extentH mn mx = (mx.y - mn.y + 1).toNat :=
    extentH_eq hmny hmxy hby (by omega)
  have hD : extentD mn mx = (mx.z - mn.z + 1).toNat :=
    extentD_eq hmnz hmxz hbz (by omega)
  have h24W : extentW mn mx ≤ 16777216 := by rw [hW]; omega
  have h24H : extentH mn mx ≤ 16777216 := by rw [hH]; omega
  have h24D : extentD mn mx ≤ 16777216 := by rw [hD]; omega
  have hfit' : extentW mn mx * extentH mn mx * extentD mn mx * 2
      < 9223372036854775808 := by
    rw [hW, hH, hD]
    exact hfit
  have hball' : ∀ e ∈ entries, mn.x ≤ e.1.x ∧ mn.y ≤ e.1.y ∧ mn.z ≤ e.1.z ∧
      (e.1.x - mn.x).toNat < extentW mn mx ∧ (e.1.y - mn.y).toNat < extentH mn mx ∧
      (e.1.z - mn.z).toNat < extentD mn mx ∧ e.1.f32exact := by
    intro e he
    obtain ⟨⟨h1, h2, h3⟩, h4, h5, h6⟩ := hball e he
    have hex : e.1.f32exact := by
      refine ⟨?_, ?_, ?_⟩
      · have := hmn24.1
        have := hmx24.1
        omega
      · have := hmn24.2.1
        have := hmx24.2.1
        omega
      · have := hmn24.2.2
        have := hmx24.2.2
        omega
    rw [hW, hH, hD]
    refine ⟨h1, h2, h3, by omega, by omega, by omega, hex⟩
  have hload := load_mkFile_eq h24W h24H h24D hmn24 hball' hfit'
  refine ⟨by rw [hload]; rfl, ?_⟩
  intro e he
  have hb := hball' e he
  have hlen : bufLen mn mx = extentW mn mx * extentH mn mx * extentD mn mx * 2 :=
    bufLen_eq (by omega)
  have hlin := lin_lt hb.2.2.2.1 hb.2.2.2.2.1 hb.2.2.2.2.2.1
  unfold byteIndex
  omega

/-- Claim C10 witness: the amended theorem at the concrete test grid — the
entry at `(1,1,1)` is stored at byte offset 14, and `14 + 1 < 16`. -/
theorem c10_witness :
    byteIndex (extentW ⟨0, 0, 0⟩ ⟨1, 1, 1⟩) (extentH ⟨0, 0, 0⟩ ⟨1, 1, 1⟩)
      ⟨0, 0, 0⟩ ⟨1, 1, 1⟩ + 1 < bufLen ⟨0, 0, 0⟩ ⟨1, 1, 1⟩ := by
  have h := (c10_inbounds_amended ⟨0, 0, 0⟩ ⟨1, 1, 1⟩
      [(⟨0, 0, 0⟩, 15360), (⟨1, 1, 1⟩, 14336)]
      (by decide) (by decide) (by decide) (by decide) (by decide) (by decide)
      (by decide) (by decide) (by decide) (by decide)).2
      (⟨1, 1, 1⟩, 14336) (by decide)
  exact h

/-- Claim C10 counterexample: the claim as stated is false.  The single
populated position `(0,0,0)` lies inside the declared bounds, yet for the
`4194304^3` box the byte-length product wraps to a zero-length buffer, the
computed index `0` does not satisfy `index + 1 < buffer length`, and the
indexing panics. -/
theorem c10_counterexample :
    (hugeOriginFile.entries.all fun e =>
      inBoundsB hugeOriginFile.aabbMin hugeOriginFile.aabbMax e.1) = true ∧
    ¬ (byteIndex (extentW hugeOriginFile.aabbMin hugeOriginFile.aabbMax)
        (extentH hugeOriginFile.aabbMin hugeOriginFile.aabbMax)
        hugeOriginFile.aabbMin ⟨0, 0, 0⟩ + 1
      < bufLen hugeOriginFile.aabbMin hugeOriginFile.aabbMax) ∧
    VolumeLoader.load hugeOriginFile = none :=
  ⟨by decide, by decide, rfl⟩

/-- Claim C9, amended.  For every accepted input the dense buffer byte length
equals the wrapping `u64` product of the extents times 2, which equals
`extent.x * extent.y * extent.z * 2` exactly whenever that product is below
`2^64` (every realistically allocatable volume, including the single-voxel
case); and the concrete test grid decodes with extent `(2,2,2)`, a 16-byte
buffer, voxel `(0,0,0)` carrying `1.0` (bits `0x3C00`), voxel `(1,1,1)`
carrying `0.5` (bits `0x3800`), and all six other voxels `0.0`. -/
theorem c9_byte_length_amended (f : VdbFile) (img : Image)
    (h : VolumeLoader.load f = some (.ok img)) :
    img.data.len = m64 (m64 (m64 (img.width * img.height) * img.depth) * 2) ∧
    (img.width * img.height * img.depth * 2 < 18446744073709551616 →
      img.data.len = img.width * img.height * img.depth * 2) ∧
    loadedData (VolumeLoader.load testGridFile) = some (2, 2, 2, 16) ∧
    loadedVoxel (VolumeLoader.load testGridFile) 0 0 0 = some 15360 ∧
    loadedVoxel (VolumeLoader.load testGridFile) 1 1 1 = some 14336 ∧
    loadedVoxel (VolumeLoader.load testGridFile) 1 0 0 = some 0 ∧
    loadedVoxel (VolumeLoader.load testGridFile) 0 1 0 = some 0 ∧
    loadedVoxel (VolumeLoader.load testGridFile) 0 0 1 = some 0 ∧
    loadedVoxel (VolumeLoader.load testGridFile) 1 1 0 = some 0 ∧
    loadedVoxel (VolumeLoader.load testGridFile) 1 0 1 = some 0 ∧
    loadedVoxel (VolumeLoader.load testGridFile) 0 1 1 = some 0 := by
  obtain ⟨hw, hh, hd, hlen, _⟩ := load_ok_inv h
  refine ⟨?_, ?_, rfl, rfl, rfl, rfl, rfl, rfl, rfl, rfl, rfl⟩
  · rw [hlen, hw, hh, hd]
    rfl
  · intro hfit
    rw [hlen, hw, hh, hd]
    rw [hw, hh, hd] at hfit
    exact m64_chain_eq hfit
/-- Claim C9 counterexample: the claim as stated is false.  The empty
`4194304^3` grid is accepted, but its buffer byte length is `0`, not
`extent.x * extent.y * extent.z * 2 = 2^67`: the `u64` product wraps. -/
theorem c9_counterexample :
    loadedData (VolumeLoader.load hugeEmptyFile) =
      some (4194304, 4194304, 4194304, 0) ∧
    4194304 * 4194304 * 4194304 * 2 ≠ 0 :=
  ⟨rfl, by decide⟩

/-- Claim C9 witness: the amended theorem applied to the concrete test grid
and its decoded image. -/
theorem c9_witness :
    testImage.data.len = testImage.width * testImage.height * testImage.depth * 2 ∧
    loadedData (VolumeLoader.load testGridFile) = some (2, 2, 2, 16) := by
  have h := c9_byte_length_amended testGridFile testImage rfl
  exact ⟨h.2.1 (by decide), h.2.2.1⟩

/-- Claim C2, amended.  The error type of the loader has no `CorruptGrid`
variant and the fill loop performs no bounds check against the declared box:
an entry outside `[aabb_min, aabb_max]` is either stored inside the buffer
at an aliased offset (the decode succeeds, as the counterexample shows) or,
when its computed index reaches past the buffer, the decode panics at the
write.  What does hold is the safety half of the claim: every write recorded
in any successfully decoded buffer is inside the allocated length — the
loader never writes past the allocated extent. -/
theorem c2_no_oob_write_amended (f : VdbFile) (img : Image)
    (h : VolumeLoader.load f = some (.ok img)) :
    ∀ v ∈ img.data.writes, v.1 < img.data.len :=
  (load_ok_inv h).2.2.2.2

/-- Claim C2 counterexample: the claim as stated is false.  The single entry
at `(3,0,0)` lies outside the declared box `[(0,0,0),(1,1,1)]`, yet the
decoder does not fail with any error: it accepts the grid (the entry lands
at aliased offset 6 inside the 16-byte buffer).  There is no `CorruptGrid`
variant in `VolumeLoaderError` at all. -/
theorem c2_counterexample :
    inBoundsB oobAliasFile.aabbMin oobAliasFile.aabbMax ⟨3, 0, 0⟩ = false ∧
    accepted (VolumeLoader.load oobAliasFile) = true := by
  decide

/-- Claim C2 witness: the amended no-out-of-bounds theorem applied to the
concrete test grid and its image, at the recorded write `(14, 0)`. -/
theorem c2_witness : (14 : Nat) < testImage.data.len :=
  c2_no_oob_write_amended testGridFile testImage rfl (14, 0) (by decide)

/-- Claim C3, amended.  The decoder performs no rejection of degenerate
extents at all: it never returns an error on metadata.  Metadata whose
wrapped byte length fits the `Vec` allocator limit `isize::MAX` is accepted
— including `aabb_max < aabb_min`, whose negative extent is reinterpreted
through the wrapping `i32`/`u32` casts — and metadata whose requested byte
length exceeds the limit makes `Vec::resize` panic (a capacity overflow,
not a rejection).  For bounds with `min ≤ max` (and extent below the `u32`
wrap, true of any real file) the computed extent is strictly positive in
each axis. -/
theorem c3_extent_amended (mn mx : IVec3) (hmn : mn.inRange) (hmx : mx.inRange) :
    (bufLen mn mx ≤ 9223372036854775807 →
      accepted (VolumeLoader.load (mkFile mn mx [])) = true) ∧
    (9223372036854775807 < bufLen mn mx →
      VolumeLoader.load (mkFile mn mx []) = none) ∧
    (mn.le mx → mx.x - mn.x + 1 < 4294967296 → mx.y - mn.y + 1 < 4294967296 →
      mx.z - mn.z + 1 < 4294967296 →
      1 ≤ extentW mn mx ∧ 1 ≤ extentH mn mx ∧ 1 ≤ extentD mn mx) := by
  refine ⟨?_, ?_, ?_⟩
  · intro hlen
    unfold VolumeLoader.load mkFile
    dsimp only
    rw [if_neg (show ¬ (9223372036854775807 < bufLen mn mx) by omega)]
    simp [List.foldlM, accepted]
  · intro hlen
    unfold VolumeLoader.load mkFile
    dsimp only
    rw [if_pos hlen]
    simp
  · intro hbox hax hay haz
    obtain ⟨hbx, hby, hbz⟩ := hbox
    rw [extentW_eq hmn.1 hmx.1 hbx hax, extentH_eq hmn.2.1 hmx.2.1 hby hay,
      extentD_eq hmn.2.2 hmx.2.2 hbz haz]
    refine ⟨?_, ?_, ?_⟩ <;> omega

/-- Claim C3 counterexample: the claim as stated is false.  This metadata
yields extent `-1 ≤ 0` on the x axis, but the decoder does not reject the
input: it accepts it, after the `as u32` cast turns the extent into
`4294967295`. -/
theorem c3_counterexample :
    wrapI32 (wrapI32 (negExtentFile.aabbMax.x - negExtentFile.aabbMin.x) + 1) ≤ 0 ∧
    accepted (VolumeLoader.load negExtentFile) = true :=
  ⟨by decide, rfl⟩

/-- Claim C3 witness: the amended theorem at the concrete box
`[(0,0,0),(1,1,1)]` — accepted, with strictly positive extent. -/
theorem c3_witness :
    accepted (VolumeLoader.load (mkFile ⟨0, 0, 0⟩ ⟨1, 1, 1⟩ [])) = true ∧
    1 ≤ extentW ⟨0, 0, 0⟩ ⟨1, 1, 1⟩ := by
  have h := c3_extent_amended ⟨0, 0, 0⟩ ⟨1, 1, 1⟩ (by decide) (by decide)
  exact ⟨h.1 (by decide), (h.2.2 (by decide) (by decide) (by decide) (by decide)).1⟩

/-- Claim C4: the code has a genuine defect here.  A container that declares
zero grids drives `available_grids().first().cloned().unwrap()` into a panic
on `None` — the decoder does not return any of its declared errors, it
panics, contradicting both the claim and the stated propagation design. -/
theorem c4_zero_grids_panics : VolumeLoader.load zeroGridsFile = none :=
  rfl

/-- Claim C5, amended.  For four of the five preconditions — pipeline
compiled, view uniform bound, light uniform bound, volume texture present
and loaded — an unmet precondition makes the node a complete no-op: no bind
group is created, no render pass is begun, the view target (the ping-pong
state) is untouched, and the node returns `Ok`.  For the fifth precondition
— the per-view settings uniform — the node still creates no bind group,
begins no pass and returns `Ok`, but it has already called
`post_process_write`, so the ping-pong color buffer is flipped even though
nothing was drawn. -/
theorem c5_early_return_amended (world : RenderWorld) (vt : ViewTarget)
    (vo lo : Nat) :
    (world.pipelineCompiled = false →
      CloudRenderNode.run world vt vo lo = ⟨vt, [], [], true⟩) ∧
    (world.viewUniformsBinding = none →
      CloudRenderNode.run world vt vo lo = ⟨vt, [], [], true⟩) ∧
    (world.lightBinding = none →
      CloudRenderNode.run world vt vo lo = ⟨vt, [], [], true⟩) ∧
    (world.cloudVolume.bind (lookupAsset world.renderAssets) = none →
      CloudRenderNode.run world vt vo lo = ⟨vt, [], [], true⟩) ∧
    (world.settingsBinding = none → world.pipelineCompiled = true →
      world.viewUniformsBinding.isSome = true → world.lightBinding.isSome = true →
      (world.cloudVolume.bind (lookupAsset world.renderAssets)).isSome = true →
      CloudRenderNode.run world vt vo lo = ⟨vt.postProcessWrite.flipped, [], [], true⟩) := by
  refine ⟨?_, ?_, ?_, ?_, ?_⟩
  · intro h1
    simp [CloudRenderNode.run, h1]
  · intro h2
    rcases hpc : world.pipelineCompiled <;> simp [CloudRenderNode.run, hpc, h2]
  · intro h3
    rcases hpc : world.pipelineCompiled <;>
      rcases hvu : world.viewUniformsBinding with _ | vb <;>
      simp [CloudRenderNode.run, hpc, hvu, h3]
  · intro h4
    rcases hpc : world.pipelineCompiled <;>
      rcases hvu : world.viewUniformsBinding with _ | vb <;>
      rcases hlb : world.lightBinding with _ | lb <;>
      rcases hcv : world.cloudVolume with _ | hdl <;>
      simp_all [CloudRenderNode.run, Option.bind]
  · intro h5 hp hv hl hc
    obtain ⟨vb, hvb⟩ := Option.isSome_iff_exists.mp hv
    obtain ⟨lb, hlb⟩ := Option.isSome_iff_exists.mp hl
    rcases hcv : world.cloudVolume with _ | hdl
    · rw [hcv] at hc
      simp at hc
    · rw [hcv] at hc
      simp only [Option.some_bind] at hc
      obtain ⟨tex, htex⟩ := Option.isSome_iff_exists.mp hc
      simp [CloudRenderNode.run, hp, hvb, hlb, hcv, htex, h5]

/-- Claim C5 counterexample: the claim as stated is false.  When only the
per-view settings uniform is missing, the node performs no GPU submission
and returns `Ok`, but it has already flipped the ping-pong color buffer
(the view target changed), because `post_process_write` is called before the
settings check in `CloudRenderNode::run`. -/
theorem c5_counterexample :
    ({ fullWorld with settingsBinding := none } : RenderWorld).settingsBinding
        = none ∧
    (CloudRenderNode.run { fullWorld with settingsBinding := none }
        ⟨10, 11, true⟩ 0 0).passes = [] ∧
    (CloudRenderNode.run { fullWorld with settingsBinding := none }
        ⟨10, 11, true⟩ 0 0).bindGroupsCreated = [] ∧
    (CloudRenderNode.run { fullWorld with settingsBinding := none }
        ⟨10, 11, true⟩ 0 0).viewTarget ≠ ⟨10, 11, true⟩ := by
  decide

/-- Claim C5 witness: the amended theorem evaluated at two concrete worlds —
a missing pipeline is a complete no-op, a missing settings uniform is a
draw-free return that still flipped the ping-pong state. -/
theorem c5_witness :
    CloudRenderNode.run { fullWorld with pipelineCompiled := false }
        ⟨10, 11, true⟩ 0 0 = ⟨⟨10, 11, true⟩, [], [], true⟩ ∧
    CloudRenderNode.run { fullWorld with settingsBinding := none }
        ⟨10, 11, true⟩ 0 0 = ⟨⟨10, 11, false⟩, [], [], true⟩ := by
  constructor
  · exact (c5_early_return_amended { fullWorld with pipelineCompiled := false }
      ⟨10, 11, true⟩ 0 0).1 rfl
  · have h := (c5_early_return_amended { fullWorld with settingsBinding := none }
      ⟨10, 11, true⟩ 0 0).2.2.2.2 rfl rfl rfl rfl rfl
    simpa using h

/-- Claim C7, confirmed.  The bind group layout declares exactly seven
bindings: 0 = view uniform with dynamic offset visible to vertex+fragment,
1 = light uniform with dynamic offset fragment-only, 2 = 2D filterable float
texture fragment-only, 3 = filtering sampler, 4 = 3D filterable float
texture fragment-only, 5 = filtering sampler, 6 = settings uniform without
dynamic offset fragment-only; and whenever the node draws, the per-frame
binding set is assembled fresh in exactly that order, with the ping-pong
`source` texture at binding 2. -/
theorem c7_layout_and_binding_order (world : RenderWorld) (vt : ViewTarget)
    (vo lo vb lb hdl sb : Nat) (tex : GpuImage)
    (hp : world.pipelineCompiled = true)
    (hv : world.viewUniformsBinding = some vb)
    (hl : world.lightBinding = some lb)
    (hc : world.cloudVolume = some hdl)
    (ht : lookupAsset world.renderAssets hdl = some tex)
    (hs : world.settingsBinding = some sb) :
    CloudPipeline.postProcessLayout =
      [⟨0, .vertexFragment, .uniformBuffer true true⟩,
       ⟨1, .fragment, .uniformBuffer true true⟩,
       ⟨2, .fragment, .texture true .d2 false⟩,
       ⟨3, .fragment, .filteringSampler⟩,
       ⟨4, .fragment, .texture true .d3 false⟩,
       ⟨5, .fragment, .filteringSampler⟩,
       ⟨6, .fragment, .uniformBuffer false true⟩] ∧
    (CloudRenderNode.run world vt vo lo).bindGroupsCreated =
      [[.buffer vb, .buffer lb, .textureView vt.postProcessWrite.source,
        .sampler world.pipelineSamplerId, .textureView tex.textureViewId,
        .sampler tex.samplerId, .buffer sb]] := by
  constructor
  · rfl
  · simp [CloudRenderNode.run, hp, hv, hl, hc, ht, hs]

/-- Claim C7 witness: at the fully populated world the created binding set
is exactly the seven resources in layout order, with the source texture of
the current ping-pong state at position 2. -/
theorem c7_witness :
    (CloudRenderNode.run fullWorld ⟨10, 11, true⟩ 64 128).bindGroupsCreated =
      [[.buffer 1, .buffer 2, .textureView 10, .sampler 30, .textureView 40,
        .sampler 41, .buffer 3]] := by
  have h := (c7_layout_and_binding_order fullWorld ⟨10, 11, true⟩ 64 128
    1 2 7 3 ⟨40, 41⟩ rfl rfl rfl rfl rfl rfl).2
  simpa using h

/-- Claim C8, amended.  When all preconditions hold the node begins exactly
one render pass whose single color attachment is the ping-pong `destination`
texture (never `source`), with no depth/stencil attachment and no resolve
target, sets the pipeline once, binds the assembled set once with the two
dynamic offsets, and issues exactly one draw of 3 vertices and 1 instance.
The color operations are `Operations::default()`, which in the underlying
API is `load = Clear(Color::default())` and `store = true` — a clearing
load, not the non-clearing load the claim states (invisible in practice
only because the full-screen triangle covers every pixel). -/
theorem c8_single_pass_amended (world : RenderWorld) (vt : ViewTarget)
    (vo lo vb lb hdl sb : Nat) (tex : GpuImage)
    (hp : world.pipelineCompiled = true)
    (hv : world.viewUniformsBinding = some vb)
    (hl : world.lightBinding = some lb)
    (hc : world.cloudVolume = some hdl)
    (ht : lookupAsset world.renderAssets hdl = some tex)
    (hs : world.settingsBinding = some sb)
    (hab : vt.texA ≠ vt.texB) :
    (CloudRenderNode.run world vt vo lo).passes =
      [⟨[some ⟨vt.postProcessWrite.destination, none, Operations.default⟩],
        false, 1,
        [(0, [.buffer vb, .buffer lb, .textureView vt.postProcessWrite.source,
          .sampler world.pipelineSamplerId, .textureView tex.textureViewId,
          .sampler tex.samplerId, .buffer sb], [vo, lo])],
        [((0, 3), (0, 1))]⟩] ∧
    Operations.default = ⟨.clear 0, true⟩ ∧
    vt.postProcessWrite.destination ≠ vt.postProcessWrite.source := by
  refine ⟨?_, rfl, ?_⟩
  · simp [CloudRenderNode.run, hp, hv, hl, hc, ht, hs]
  · rcases hm : vt.mainIsA
    · simp [ViewTarget.postProcessWrite, hm]
      exact hab
    · simp [ViewTarget.postProcessWrite, hm]
      exact fun hEq => hab hEq.symm

/-- Claim C8 counterexample: the claim as stated is false in its
"non-clearing color load operations" part.  At a fully populated world the
single pass the node begins carries `Operations::default()`, whose load
operation clears the attachment (`LoadOp::Clear(Color::default())`) rather
than loading it. -/
theorem c8_counterexample :
    ((CloudRenderNode.run fullWorld ⟨10, 11, true⟩ 64 128).passes.map fun p =>
      p.colorAttachments.all fun a =>
        (a.map fun att => att.ops.nonClearing).getD true) = [false] := by
  decide

/-- Claim C8 witness: the amended theorem at the fully populated world — one
pass targeting the destination texture 11 (main was 10), clearing default
operations, no depth/stencil, one draw of 3 vertices and 1 instance. -/
theorem c8_witness :
    (CloudRenderNode.run fullWorld ⟨10, 11, true⟩ 64 128).passes =
      [⟨[some ⟨11, none, ⟨.clear 0, true⟩⟩], false, 1,
        [(0, [.buffer 1, .buffer 2, .textureView 10, .sampler 30,
          .textureView 40, .sampler 41, .buffer 3], [64, 128])],
        [((0, 3), (0, 1))]⟩] := by
  have h := (c8_single_pass_amended fullWorld ⟨10, 11, true⟩ 64 128
    1 2 7 3 ⟨40, 41⟩ rfl rfl rfl rfl rfl rfl (by decide)).1
  simpa [ViewTarget.postProcessWrite, Operations.default] using h

/-- Claim C6 counterexample: the claim as stated is false.  The settings
record of the source has twelve fields, not the ten the claim lists: there
is no `light_scattering` field, and `light_absorption_sun`,
`forward_scattering` and `back_scattering` are absent from the claimed
layout. -/
theorem c6_counterexample : CloudSettings.fields ≠ specClaimedSettingsFields := by
  decide

/-- Claim C6, amended.  The per-view settings record, in declaration (and
hence uniform layout) order, has exactly the twelve fields
`bounds_min: vec3f32, bounds_max: vec3f32, steps: u32, light_steps: u32,
light_absorption: f32, light_absorption_sun: f32, darkness_threshold: f32,
ray_offset_strength: f32, forward_scattering: f32, back_scattering: f32,
base_brightness: f32, phase_factor: f32`. -/
theorem c6_settings_fields_amended :
    CloudSettings.fields =
      [("bounds_min", FieldType.vec3f32),
       ("bounds_max", FieldType.vec3f32),
       ("steps", FieldType.u32),
       ("light_steps", FieldType.u32),
       ("light_absorption", FieldType.f32),
       ("light_absorption_sun", FieldType.f32),
       ("darkness_threshold", FieldType.f32),
       ("ray_offset_strength", FieldType.f32),
       ("forward_scattering", FieldType.f32),
       ("back_scattering", FieldType.f32),
       ("base_brightness", FieldType.f32),
       ("phase_factor", FieldType.f32)] ∧
    CloudSettings.fields.length = 12 :=
  ⟨rfl, rfl⟩
